import Mathlib

/-!
# Verification of the `SoundMeter` component (`src/components/SoundMeter.tsx`)

A shallow embedding of the sound-level-meter component.  Machine `number`
arithmetic is modelled over `ℝ` where the source uses `Math.sqrt` / `Math.log10`
(the loudness formula), and over `ℚ` where the source only adds, multiplies,
divides and compares (the aggregation, smoothing and graph code).  The single
genuine fault site of the loudness formula — `sum / dataArray.length` with a
zero-length buffer, which in JavaScript produces `NaN` that then propagates
through `sqrt`, `max`, `log10` and the clamps — is modelled by an `Option`
result, `none` standing for the `NaN` outcome.
-/

namespace SoundMeter

/-- `MEASUREMENT_DURATION = 30` seconds. -/
def MEASUREMENT_DURATION : ℚ := 30

/-- `GRAPH_SAMPLE_INTERVAL = 1` second between graph samples. -/
def GRAPH_SAMPLE_INTERVAL : ℚ := 1

/-- `SMOOTHING_SAMPLES = 8`, the rolling-window length used for display smoothing. -/
def SMOOTHING_SAMPLES : ℕ := 8

/-! ## Loudness computation (`calculateDb`) -/

/-- The loop body of `calculateDb`: for each byte `v` of the buffer it forms
`normalized = (v - 128) / 128` and accumulates `normalized * normalized`. -/
noncomputable def dbLoopStep (acc : ℝ) (v : ℕ) : ℝ :=
  let normalized : ℝ := ((v : ℝ) - 128) / 128
  acc + normalized * normalized

/-- The numeric value computed by `calculateDb(dataArray)`: sum the squared
normalized samples, take the root-mean-square, convert via
`20 * log10(max(rms, 0.00001))`, shift by `+100` and clamp with
`Math.max(0, Math.min(100, ...))`. -/
noncomputable def loudnessVal (dataArray : List ℕ) : ℝ :=
  let sum : ℝ := dataArray.foldl dbLoopStep 0
  let rms : ℝ := Real.sqrt (sum / (dataArray.length : ℝ))
  let db : ℝ := 20 * Real.logb 10 (max rms (1 / 100000))
  max 0 (min 100 (db + 100))

/-- `calculateDb`, with its one fault site made explicit: on the empty buffer
the JavaScript division `sum / dataArray.length` is `0 / 0 = NaN`, and `NaN`
propagates through `Math.sqrt`, `Math.max`, `Math.log10`, `Math.min` to the
returned value; that outcome is `none` here.  On every non-empty buffer the
function returns `loudnessVal`. -/
noncomputable def calculateDb (dataArray : List ℕ) : Option ℝ :=
  if dataArray.length = 0 then none else some (loudnessVal dataArray)

/-- The loudness formula exactly as the specification words it: normalize each
sample to `(v - 128)/128`, take the root-mean-square of the normalized values,
compute `20 * log10(max(rms, ε))` with `ε = 0.00001`, add `100`, clamp to
`[0, 100]`. -/
noncomputable def specLoudness (dataArray : List ℕ) : ℝ :=
  let rms : ℝ :=
    Real.sqrt ((dataArray.map (fun v : ℕ => (((v : ℝ) - 128) / 128) ^ 2)).sum
      / (dataArray.length : ℝ))
  max 0 (min 100 (20 * Real.logb 10 (max rms (1 / 100000)) + 100))

/-- Unfolding the accumulating loop of `calculateDb` into a sum of squares. -/
theorem foldl_dbLoopStep (l : List ℕ) (a : ℝ) :
    l.foldl dbLoopStep a = a + (l.map (fun v : ℕ => (((v : ℝ) - 128) / 128) ^ 2)).sum := by
  induction l generalizing a with
  | nil => simp
  | cons x xs ih =>
      simp only [List.foldl_cons, List.map_cons, List.sum_cons, ih, dbLoopStep]
      ring

/-- The clamp `Math.max(0, Math.min(100, ...))` keeps `loudnessVal` in `[0, 100]`. -/
theorem loudnessVal_mem_Icc (l : List ℕ) : 0 ≤ loudnessVal l ∧ loudnessVal l ≤ 100 := by
  unfold loudnessVal
  exact ⟨le_max_left _ _, max_le (by norm_num) (min_le_left _ _)⟩

/-- C1: on every non-empty buffer of bytes, `calculateDb` returns exactly the
formula of the specification: per-sample normalization `(v - 128)/128`,
root-mean-square, `20*log10(max(rms, 0.00001))`, shift by `+100`, clamp to
`[0, 100]`. -/
theorem C1_calculateDb_eq_specLoudness (l : List ℕ) (hne : l ≠ [])
    (_hbytes : ∀ v ∈ l, v ≤ 255) :
    calculateDb l = some (specLoudness l) := by
  have hlen : ¬ l.length = 0 := by simpa using hne
  simp only [calculateDb, if_neg hlen, loudnessVal, specLoudness,
    foldl_dbLoopStep, zero_add]

/-- Witness for C1 at the one-byte buffer `[128]`. -/
theorem C1_calculateDb_eq_specLoudness_witness :
    ([128] : List ℕ) ≠ [] ∧ (∀ v ∈ ([128] : List ℕ), v ≤ 255) ∧
      calculateDb [128] = some (specLoudness [128]) :=
  ⟨by simp, by simp, C1_calculateDb_eq_specLoudness [128] (by simp) (by simp)⟩

/-- C2 counterexample: on the empty buffer `calculateDb` returns the `NaN`
outcome (`none`), not a number in `[0, 100]`: the claim fails for the empty
buffer. -/
theorem C2_empty_buffer_counterexample :
    calculateDb ([] : List ℕ) = none ∧
      ¬ ∃ x : ℝ, calculateDb ([] : List ℕ) = some x ∧ 0 ≤ x ∧ x ≤ 100 := by
  refine ⟨by simp [calculateDb], ?_⟩
  rintro ⟨x, hx, -⟩
  simp [calculateDb] at hx

/-- C2 (amended): on every NON-empty buffer, `calculateDb` returns a value and
that value lies in `[0, 100]`; on the empty buffer the division `0/0` yields
the `NaN` outcome. -/
theorem C2_calculateDb_total_in_range (l : List ℕ) (hne : l ≠ []) :
    ∃ x : ℝ, calculateDb l = some x ∧ 0 ≤ x ∧ x ≤ 100 := by
  have hlen : ¬ l.length = 0 := by simpa using hne
  exact ⟨loudnessVal l, by simp [calculateDb, hne],
    (loudnessVal_mem_Icc l).1, (loudnessVal_mem_Icc l).2⟩

/-- Witness for C2 (amended) at the buffer `[0]`. -/
theorem C2_calculateDb_total_in_range_witness :
    ([0] : List ℕ) ≠ [] ∧ ∃ x : ℝ, calculateDb [0] = some x ∧ 0 ≤ x ∧ x ≤ 100 :=
  ⟨by simp, C2_calculateDb_total_in_range [0] (by simp)⟩

/-! ## The two scenario buffers of the specification -/

/-- A buffer of `2 * n` bytes alternating between `0` and `255`. -/
def altBuffer : ℕ → List ℕ
  | 0 => []
  | n + 1 => 0 :: 255 :: altBuffer n

theorem altBuffer_length (n : ℕ) : (altBuffer n).length = 2 * n := by
  induction n with
  | zero => rfl
  | succ n ih => simp only [altBuffer, List.length_cons, ih]; omega

theorem altBuffer_map_sum (n : ℕ) :
    ((altBuffer n).map (fun v : ℕ => (((v : ℝ) - 128) / 128) ^ 2)).sum
      = (n : ℝ) * (1 + ((127 : ℝ) / 128) ^ 2) := by
  induction n with
  | zero => simp [altBuffer]
  | succ n ih =>
      simp only [altBuffer, List.map_cons, List.sum_cons, ih]
      push_cast
      ring

/-- `Math.log10(0.00001) = -5`. -/
theorem logb_ten_eps : Real.logb 10 (1 / 100000) = -5 := by
  have h1 : (1 / 100000 : ℝ) = ((10 : ℝ) ^ (5 : ℕ))⁻¹ := by norm_num
  rw [h1, Real.logb_inv, Real.logb_pow, Real.logb_self_eq_one (by norm_num)]
  norm_num

/-- The all-`128` buffer has zero RMS, and the epsilon floor plus clamp give
exactly `0`. -/
theorem loudnessVal_silent : loudnessVal (List.replicate 2048 128) = 0 := by
  have hsum : (List.replicate 2048 (128 : ℕ)).foldl dbLoopStep 0 = (0 : ℝ) := by
    rw [foldl_dbLoopStep]
    norm_num [List.map_replicate, List.sum_replicate]
  simp only [loudnessVal]
  rw [hsum, zero_div, Real.sqrt_zero,
    max_eq_right (by norm_num : (0 : ℝ) ≤ 1 / 100000), logb_ten_eps,
    show (20 : ℝ) * (-5) + 100 = 0 by norm_num,
    min_eq_right (by norm_num : (0 : ℝ) ≤ 100), max_self]

/-- On the alternating `0`/`255` buffer the RMS is `√(32513/32768)`, whose
decibel value stays above `99`. -/
theorem loudnessVal_alt_ge : 99 ≤ loudnessVal (altBuffer 1024) := by
  have hq : ((altBuffer 1024).foldl dbLoopStep 0) / ((altBuffer 1024).length : ℝ)
      = 32513 / 32768 := by
    rw [foldl_dbLoopStep, altBuffer_map_sum, altBuffer_length]
    norm_num
  have hmax : max (Real.sqrt (32513 / 32768 : ℝ)) (1 / 100000)
      = Real.sqrt (32513 / 32768 : ℝ) := by
    refine max_eq_left ?_
    rw [Real.le_sqrt (by norm_num) (by norm_num)]
    norm_num
  have hpow : Real.sqrt (32513 / 32768 : ℝ) ^ (20 : ℕ) = (32513 / 32768 : ℝ) ^ (10 : ℕ) := by
    rw [show (20 : ℕ) = 2 * 10 from rfl, pow_mul, Real.sq_sqrt (by norm_num)]
  have hkey : (-1 : ℝ) ≤ 20 * Real.logb 10 (Real.sqrt (32513 / 32768 : ℝ)) := by
    have h20 : (20 : ℝ) * Real.logb 10 (Real.sqrt (32513 / 32768 : ℝ))
        = Real.logb 10 (Real.sqrt (32513 / 32768 : ℝ) ^ (20 : ℕ)) := by
      rw [Real.logb_pow]
      norm_num
    have hneg1 : (-1 : ℝ) = Real.logb 10 ((10 : ℝ)⁻¹) := by
      rw [Real.logb_inv, Real.logb_self_eq_one (by norm_num)]
    rw [h20, hpow, hneg1]
    refine Real.logb_le_logb_of_le (by norm_num) (by norm_num) ?_
    rw [div_pow, inv_eq_one_div, div_le_div_iff₀ (by norm_num) (by positivity)]
    norm_num
  simp only [loudnessVal]
  rw [hq, hmax]
  refine le_trans (le_min (by norm_num) (by linarith)) (le_max_right _ _)

/-- C3: `calculateDb` on 2048 bytes all equal to `128` returns exactly `0`, and
on 2048 bytes alternating between `0` and `255` returns a value of at least
`99`. -/
theorem C3_scenario_buffers :
    calculateDb (List.replicate 2048 128) = some 0 ∧
      ∃ r : ℝ, calculateDb (altBuffer 1024) = some r ∧ 99 ≤ r := by
  constructor
  · rw [calculateDb, if_neg (by norm_num), loudnessVal_silent]
  · refine ⟨loudnessVal (altBuffer 1024), ?_, loudnessVal_alt_ge⟩
    rw [calculateDb, if_neg (by rw [altBuffer_length]; norm_num)]

/-! ## Sample statistics

The aggregation code (`Math.max(...arr)`, `arr.reduce((a, b) => a + b, 0)`,
`Math.round`) only adds, divides and compares, so it is embedded over `ℚ`. -/

/-- `arr.reduce((a, b) => a + b, 0)`. -/
def listSum (l : List ℚ) : ℚ := l.foldl (fun a b => a + b) 0

/-- `Math.max(...arr)`: fold of the binary maximum over the elements.  The
component only ever spreads non-empty arrays; the `[]` case is junk (JavaScript
would give `-Infinity`). -/
def maxD : List ℚ → ℚ
  | [] => 0
  | x :: xs => xs.foldl max x

/-- `Math.min(...arr)`, same conventions as `maxD`. -/
def minD : List ℚ → ℚ
  | [] => 0
  | x :: xs => xs.foldl min x

/-- `arr.reduce((a, b) => a + b, 0) / arr.length`. -/
def listAvg (l : List ℚ) : ℚ := listSum l / l.length

/-- `Math.round(x) = ⌊x + 1/2⌋` (JavaScript rounds half toward `+∞`). -/
def jsRound (x : ℚ) : ℤ := ⌊x + 1 / 2⌋

theorem foldl_add_eq (l : List ℚ) (a : ℚ) :
    l.foldl (fun x y => x + y) a = a + l.sum := by
  induction l generalizing a with
  | nil => simp
  | cons x xs ih => rw [List.foldl_cons, ih, List.sum_cons]; ring

theorem listSum_eq_sum (l : List ℚ) : listSum l = l.sum := by
  simpa [listSum] using foldl_add_eq l 0

theorem le_foldl_max (xs : List ℚ) (a : ℚ) : a ≤ xs.foldl max a := by
  induction xs generalizing a with
  | nil => exact le_refl a
  | cons x xs ih => exact le_trans (le_max_left a x) (ih (max a x))

theorem mem_le_foldl_max (xs : List ℚ) (a : ℚ) : ∀ x ∈ xs, x ≤ xs.foldl max a := by
  induction xs generalizing a with
  | nil => intro x hx; simp at hx
  | cons y ys ih =>
      intro x hx
      rcases List.mem_cons.mp hx with rfl | hx
      · exact le_trans (le_max_right a x) (le_foldl_max ys (max a x))
      · exact ih (max a y) x hx

theorem foldl_min_le (xs : List ℚ) (a : ℚ) : xs.foldl min a ≤ a := by
  induction xs generalizing a with
  | nil => exact le_refl a
  | cons x xs ih => exact le_trans (ih (min a x)) (min_le_left a x)

theorem foldl_min_le_mem (xs : List ℚ) (a : ℚ) : ∀ x ∈ xs, xs.foldl min a ≤ x := by
  induction xs generalizing a with
  | nil => intro x hx; simp at hx
  | cons y ys ih =>
      intro x hx
      rcases List.mem_cons.mp hx with rfl | hx
      · exact le_trans (foldl_min_le ys (min a x)) (min_le_right a x)
      · exact ih (min a y) x hx

/-- Every element is at most the spread maximum. -/
theorem mem_le_maxD (l : List ℚ) (x : ℚ) (hx : x ∈ l) : x ≤ maxD l := by
  cases l with
  | nil => simp at hx
  | cons y ys =>
      rcases List.mem_cons.mp hx with rfl | hx
      · exact le_foldl_max ys x
      · exact mem_le_foldl_max ys y x hx

/-- The spread minimum is at most every element. -/
theorem minD_le_mem (l : List ℚ) (x : ℚ) (hx : x ∈ l) : minD l ≤ x := by
  cases l with
  | nil => simp at hx
  | cons y ys =>
      rcases List.mem_cons.mp hx with rfl | hx
      · exact foldl_min_le ys x
      · exact foldl_min_le_mem ys y x hx

theorem sum_le_length_mul (l : List ℚ) (M : ℚ) (h : ∀ x ∈ l, x ≤ M) :
    l.sum ≤ l.length * M := by
  induction l with
  | nil => simp
  | cons x xs ih =>
      have hxs := ih fun y hy => h y (List.mem_cons_of_mem _ hy)
      have hx := h x (List.mem_cons_self _ _)
      simp only [List.sum_cons, List.length_cons]
      push_cast
      nlinarith [hxs, hx]

theorem length_mul_le_sum (l : List ℚ) (m : ℚ) (h : ∀ x ∈ l, m ≤ x) :
    l.length * m ≤ l.sum := by
  induction l with
  | nil => simp
  | cons x xs ih =>
      have hxs := ih fun y hy => h y (List.mem_cons_of_mem _ hy)
      have hx := h x (List.mem_cons_self _ _)
      simp only [List.sum_cons, List.length_cons]
      push_cast
      nlinarith [hxs, hx]

/-- The arithmetic mean of a non-empty sample list lies between its spread
minimum and maximum. -/
theorem listAvg_mem_minMax (l : List ℚ) (hne : l ≠ []) :
    minD l ≤ listAvg l ∧ listAvg l ≤ maxD l := by
  have hpos : (0 : ℚ) < l.length := by
    have := List.length_pos.mpr hne
    exact_mod_cast this
  constructor
  · rw [listAvg, listSum_eq_sum, le_div_iff₀ hpos, mul_comm]
    exact length_mul_le_sum l (minD l) fun x hx => minD_le_mem l x hx
  · rw [listAvg, listSum_eq_sum, div_le_iff₀ hpos, mul_comm]
    exact sum_le_length_mul l (maxD l) fun x hx => mem_le_maxD l x hx

/-- `Math.round` moves a value by at most one half, upward bound. -/
theorem jsRound_le (x : ℚ) : (jsRound x : ℚ) ≤ x + 1 / 2 := Int.floor_le _

/-- `Math.round` moves a value by at most one half, downward bound. -/
theorem lt_jsRound (x : ℚ) : x - 1 / 2 < (jsRound x : ℚ) := by
  have h := Int.lt_floor_add_one (x + 1 / 2)
  rw [jsRound]
  linarith

/-- C4 counterexample: with the single collected sample `2/5`, the reported
`Max` is `Math.round(2/5) = 0`, which is smaller than the sample itself; the
claim as stated fails because of the rounding applied before display. -/
theorem C4_reported_max_counterexample :
    (2 / 5 : ℚ) ∈ [(2 / 5 : ℚ)] ∧ ¬ ((2 / 5 : ℚ) ≤ (jsRound (maxD [(2 / 5 : ℚ)]) : ℚ)) := by
  refine ⟨by simp, ?_⟩
  have h : maxD [(2 / 5 : ℚ)] = 2 / 5 := rfl
  rw [h, jsRound]
  norm_num [Int.floor_eq_zero_iff]

/-- C4 (amended): up to the half-unit error of `Math.round`, the reported `Max`
dominates every collected sample and the reported `Avg` lies between the
smallest and largest sample: `Max ≥ x - 1/2` for every sample `x`, and
`Avg ∈ [min - 1/2, max + 1/2]`. -/
theorem C4_reported_stats_bounds (l : List ℚ) (hne : l ≠ []) :
    (∀ x ∈ l, x - 1 / 2 ≤ (jsRound (maxD l) : ℚ)) ∧
      minD l - 1 / 2 ≤ (jsRound (listAvg l) : ℚ) ∧
      (jsRound (listAvg l) : ℚ) ≤ maxD l + 1 / 2 := by
  obtain ⟨hmin, hmax⟩ := listAvg_mem_minMax l hne
  refine ⟨fun x hx => ?_, ?_, ?_⟩
  · have h1 := mem_le_maxD l x hx
    have h2 := lt_jsRound (maxD l)
    linarith
  · have h2 := lt_jsRound (listAvg l)
    linarith
  · have h2 := jsRound_le (listAvg l)
    linarith

/-- Witness for C4 (amended) at the sample list `[3]`. -/
theorem C4_reported_stats_bounds_witness :
    ([(3 : ℚ)] ≠ []) ∧
      ((∀ x ∈ [(3 : ℚ)], x - 1 / 2 ≤ (jsRound (maxD [(3 : ℚ)]) : ℚ)) ∧
        minD [(3 : ℚ)] - 1 / 2 ≤ (jsRound (listAvg [(3 : ℚ)]) : ℚ) ∧
        (jsRound (listAvg [(3 : ℚ)]) : ℚ) ≤ maxD [(3 : ℚ)] + 1 / 2) :=
  ⟨by simp, C4_reported_stats_bounds [(3 : ℚ)] (by simp)⟩

/-! ## Session state machine

The component's `useState` hooks and `useRef` cells form one record.  The
display values `currentDb`, `maxDb`, `avgDb` are the rounded integers handed to
the setters; `resourcesOpen` abstracts the capture resources (media stream,
audio context, pending animation frame) that `cleanup` releases.  Times are in
milliseconds, as returned by `Date.now()`. -/

structure MeterState where
  currentDb : Option ℤ
  maxDb : Option ℤ
  avgDb : Option ℤ
  isActive : Bool
  timeLeft : ℤ
  history : List ℚ
  showGraph : Bool
  measurements : List ℚ
  recentSamples : List ℚ
  startTime : ℚ
  lastDisplayUpdate : ℚ
  resourcesOpen : Bool
  deriving DecidableEq

/-- `cleanup()`: cancel the pending animation frame, stop the stream tracks and
close the audio context. -/
def cleanup (s : MeterState) : MeterState := { s with resourcesOpen := false }

/-- The tail of `startMeasurement` once `getUserMedia` has resolved: the refs
and every piece of per-session state are reset before the first animation frame
is scheduled.  `now` is `Date.now()` at the start of the session. -/
def startSuccess (now : ℚ) (s : MeterState) : MeterState :=
  { s with
    measurements := []
    recentSamples := []
    startTime := now
    lastDisplayUpdate := 0
    isActive := true
    showGraph := false
    history := []
    maxDb := none
    avgDb := none
    currentDb := none
    timeLeft := 30
    resourcesOpen := true }

/-- The `catch` block of `startMeasurement`: log the error and set `isActive`
to `false`; nothing else is touched. -/
def startFailure (s : MeterState) : MeterState := { s with isActive := false }

/-- `startMeasurement`, branching on whether capture acquisition succeeds.
`acquired = false` models `getUserMedia` rejecting (permission denied or no
device); that call is the first statement of the `try` block, so no state was
modified before the `catch` runs. -/
def startMeasurement (acquired : Bool) (now : ℚ) (s : MeterState) : MeterState :=
  if acquired then startSuccess now s else startFailure s

/-- Pushing one loudness sample into the rolling window: `push`, then `shift`
when the length exceeds `SMOOTHING_SAMPLES`. -/
def pushRecent (w : List ℚ) (x : ℚ) : List ℚ :=
  let grown := w ++ [x]
  if SMOOTHING_SAMPLES < grown.length then grown.tail else grown

/-- One invocation of the per-frame callback `measure`.  `now` models
`Date.now()`, `db` is the loudness `calculateDb` computes from the freshly read
buffer, and `lastHistoryUpdate` is the closure-captured variable of that name.
Returns the updated state together with the new `lastHistoryUpdate`. -/
def measureStep (now db lastHistoryUpdate : ℚ) (s : MeterState) : MeterState × ℚ :=
  let elapsed := (now - s.startTime) / 1000
  let remaining := max 0 (MEASUREMENT_DURATION - elapsed)
  let s := { s with timeLeft := ⌈remaining⌉ }
  if remaining ≤ 0 then
    let s := cleanup { s with isActive := false }
    let s :=
      if s.measurements.length > 0 then
        { s with
          maxDb := some (jsRound (maxD s.measurements))
          avgDb := some (jsRound (listAvg s.measurements)) }
      else s
    ({ s with showGraph := true }, lastHistoryUpdate)
  else
    let s :=
      { s with
        measurements := s.measurements ++ [db]
        recentSamples := pushRecent s.recentSamples db }
    let s :=
      if 200 ≤ now - s.lastDisplayUpdate then
        { s with
          currentDb := some (jsRound (listAvg s.recentSamples))
          lastDisplayUpdate := now
          maxDb := some (jsRound (maxD s.measurements))
          avgDb := some (jsRound (listAvg s.measurements)) }
      else s
    if GRAPH_SAMPLE_INTERVAL ≤ elapsed - lastHistoryUpdate then
      ({ s with history := s.history ++ [db] }, elapsed)
    else (s, lastHistoryUpdate)

/-- The recomputed remaining time `max(0, 30 - elapsed)` reaches zero exactly
when thirty seconds have elapsed. -/
theorem remaining_le_zero_iff (e : ℚ) :
    max 0 (MEASUREMENT_DURATION - e) ≤ 0 ↔ MEASUREMENT_DURATION ≤ e := by
  rw [max_le_iff, MEASUREMENT_DURATION]
  constructor
  · rintro ⟨-, h⟩; linarith
  · intro h; exact ⟨le_refl 0, by linarith⟩

/-- Field values of the state after a frame in which the session completed. -/
theorem measureStep_complete_fields (now db lhu : ℚ) (s : MeterState)
    (h : max 0 (MEASUREMENT_DURATION - (now - s.startTime) / 1000) ≤ 0) :
    (measureStep now db lhu s).1.isActive = false ∧
      (measureStep now db lhu s).1.measurements = s.measurements ∧
      (measureStep now db lhu s).1.recentSamples = s.recentSamples ∧
      (measureStep now db lhu s).1.history = s.history ∧
      (measureStep now db lhu s).1.resourcesOpen = false ∧
      (measureStep now db lhu s).1.showGraph = true ∧
      (s.measurements ≠ [] →
        (measureStep now db lhu s).1.maxDb = some (jsRound (maxD s.measurements)) ∧
        (measureStep now db lhu s).1.avgDb = some (jsRound (listAvg s.measurements))) := by
  simp only [measureStep, if_pos h, cleanup]
  split_ifs with h2
  · simp
  · have : s.measurements = [] := List.length_eq_zero.mp (by omega)
    simp [this]

/-- Field values of the state after a frame in which the session kept running. -/
theorem measureStep_running_fields (now db lhu : ℚ) (s : MeterState)
    (h : ¬ max 0 (MEASUREMENT_DURATION - (now - s.startTime) / 1000) ≤ 0) :
    (measureStep now db lhu s).1.isActive = s.isActive ∧
      (measureStep now db lhu s).1.measurements = s.measurements ++ [db] ∧
      (measureStep now db lhu s).1.recentSamples = pushRecent s.recentSamples db ∧
      (measureStep now db lhu s).1.resourcesOpen = s.resourcesOpen := by
  simp only [measureStep, if_neg h]
  split_ifs <;> simp

/-- The push/shift discipline keeps the rolling window at no more than
`SMOOTHING_SAMPLES` entries. -/
theorem pushRecent_length_le (w : List ℚ) (x : ℚ) (h : w.length ≤ SMOOTHING_SAMPLES) :
    (pushRecent w x).length ≤ SMOOTHING_SAMPLES := by
  simp only [pushRecent] at *
  split_ifs with h1 <;>
    simp only [List.length_tail, List.length_append, List.length_singleton,
      SMOOTHING_SAMPLES] at * <;>
    omega

/-- The rolling window after a push is a suffix of the pushed list: it keeps
the most recent samples. -/
theorem pushRecent_suffix (w : List ℚ) (x : ℚ) :
    (pushRecent w x).IsSuffix (w ++ [x]) := by
  simp only [pushRecent]
  split_ifs
  · exact List.tail_suffix _
  · exact List.suffix_refl _

/-- The rolling window is never empty after a push. -/
theorem pushRecent_ne_nil (w : List ℚ) (x : ℚ) : pushRecent w x ≠ [] := by
  simp only [pushRecent]
  split_ifs with h1
  · refine List.length_pos.mp ?_
    rw [List.length_tail, List.length_append]
    simp only [List.length_append, List.length_singleton, SMOOTHING_SAMPLES] at h1
    omega
  · simp

/-- C5: a frame step never grows the rolling window past `SMOOTHING_SAMPLES`
entries, and while the session is running the step replaces the window by the
most recent suffix of `window ++ [db]`, whose smoothed (mean) value lies
between the window's minimum and maximum. -/
theorem C5_rolling_window (now db lhu : ℚ) (s : MeterState)
    (hlen : s.recentSamples.length ≤ SMOOTHING_SAMPLES) :
    (measureStep now db lhu s).1.recentSamples.length ≤ SMOOTHING_SAMPLES ∧
      ((now - s.startTime) / 1000 < MEASUREMENT_DURATION →
        (measureStep now db lhu s).1.recentSamples = pushRecent s.recentSamples db ∧
        (measureStep now db lhu s).1.recentSamples.IsSuffix (s.recentSamples ++ [db]) ∧
        minD (measureStep now db lhu s).1.recentSamples
            ≤ listAvg (measureStep now db lhu s).1.recentSamples ∧
        listAvg (measureStep now db lhu s).1.recentSamples
            ≤ maxD (measureStep now db lhu s).1.recentSamples) := by
  by_cases h : max 0 (MEASUREMENT_DURATION - (now - s.startTime) / 1000) ≤ 0
  · obtain ⟨-, -, hrec, -⟩ := measureStep_complete_fields now db lhu s h
    refine ⟨by rw [hrec]; exact hlen, fun hlt => ?_⟩
    exact absurd ((remaining_le_zero_iff _).mp h) (not_le.mpr hlt)
  · obtain ⟨-, -, hrec, -⟩ := measureStep_running_fields now db lhu s h
    have hwin := pushRecent_length_le s.recentSamples db hlen
    have hwne := pushRecent_ne_nil s.recentSamples db
    have havg := listAvg_mem_minMax (pushRecent s.recentSamples db) hwne
    rw [hrec]
    exact ⟨hwin, fun _ => ⟨rfl, pushRecent_suffix _ _, havg.1, havg.2⟩⟩

/-- A mid-session state used to instantiate the frame-step theorems. -/
def demoState : MeterState where
  currentDb := none
  maxDb := none
  avgDb := none
  isActive := true
  timeLeft := 30
  history := []
  showGraph := false
  measurements := [5]
  recentSamples := [5]
  startTime := 0
  lastDisplayUpdate := 0
  resourcesOpen := true

/-- Witness for C5 one second into a session, with sample `7` arriving. -/
theorem C5_rolling_window_witness :
    demoState.recentSamples.length ≤ SMOOTHING_SAMPLES ∧
      ((measureStep 1000 7 0 demoState).1.recentSamples.length ≤ SMOOTHING_SAMPLES ∧
        ((1000 - demoState.startTime) / 1000 < MEASUREMENT_DURATION →
          (measureStep 1000 7 0 demoState).1.recentSamples
              = pushRecent demoState.recentSamples 7 ∧
          (measureStep 1000 7 0 demoState).1.recentSamples.IsSuffix
              (demoState.recentSamples ++ [7]) ∧
          minD (measureStep 1000 7 0 demoState).1.recentSamples
              ≤ listAvg (measureStep 1000 7 0 demoState).1.recentSamples ∧
          listAvg (measureStep 1000 7 0 demoState).1.recentSamples
              ≤ maxD (measureStep 1000 7 0 demoState).1.recentSamples)) :=
  ⟨by decide, C5_rolling_window 1000 7 0 demoState (by decide)⟩

/-- C6: a successful start resets the sample set, the rolling window, the
history, the displayed max/avg/current values, the countdown and the graph
flag before any sample of the new session is taken. -/
theorem C6_start_resets (now : ℚ) (s : MeterState) :
    (startMeasurement true now s).measurements = [] ∧
      (startMeasurement true now s).recentSamples = [] ∧
      (startMeasurement true now s).history = [] ∧
      (startMeasurement true now s).maxDb = none ∧
      (startMeasurement true now s).avgDb = none ∧
      (startMeasurement true now s).currentDb = none ∧
      (startMeasurement true now s).isActive = true ∧
      (startMeasurement true now s).timeLeft = 30 ∧
      (startMeasurement true now s).showGraph = false := by
  simp [startMeasurement, startSuccess]

/-- C7: when capture acquisition fails the `catch` block only flips `isActive`
back to `false`; max, avg, current, history, both sample sets and every other
field are exactly as before the attempt. -/
theorem C7_start_failure_preserves (now : ℚ) (s : MeterState) :
    (startMeasurement false now s).isActive = false ∧
      (startMeasurement false now s).maxDb = s.maxDb ∧
      (startMeasurement false now s).avgDb = s.avgDb ∧
      (startMeasurement false now s).currentDb = s.currentDb ∧
      (startMeasurement false now s).history = s.history ∧
      (startMeasurement false now s).measurements = s.measurements ∧
      (startMeasurement false now s).recentSamples = s.recentSamples ∧
      (startMeasurement false now s).showGraph = s.showGraph ∧
      (startMeasurement false now s).timeLeft = s.timeLeft ∧
      (startMeasurement false now s).startTime = s.startTime ∧
      (startMeasurement false now s).resourcesOpen = s.resourcesOpen := by
  simp [startMeasurement, startFailure]

/-- C8: a running session's frame step deactivates the session exactly when the
recomputed remaining time reaches zero, and in that completing step no further
sample is taken (sample set, window and history are unchanged), the capture
resources are released, and the final max/avg are the rounded maximum and mean
of the full session sample set. -/
theorem C8_session_completion (now db lhu : ℚ) (s : MeterState)
    (hactive : s.isActive = true) (hne : s.measurements ≠ []) :
    ((measureStep now db lhu s).1.isActive = false ↔
        MEASUREMENT_DURATION ≤ (now - s.startTime) / 1000) ∧
      (MEASUREMENT_DURATION ≤ (now - s.startTime) / 1000 →
        (measureStep now db lhu s).1.measurements = s.measurements ∧
        (measureStep now db lhu s).1.recentSamples = s.recentSamples ∧
        (measureStep now db lhu s).1.history = s.history ∧
        (measureStep now db lhu s).1.resourcesOpen = false ∧
        (measureStep now db lhu s).1.showGraph = true ∧
        (measureStep now db lhu s).1.maxDb = some (jsRound (maxD s.measurements)) ∧
        (measureStep now db lhu s).1.avgDb = some (jsRound (listAvg s.measurements))) := by
  by_cases h : max 0 (MEASUREMENT_DURATION - (now - s.startTime) / 1000) ≤ 0
  · obtain ⟨hact, hmeas, hrec, hhist, hres, hshow, hstats⟩ :=
      measureStep_complete_fields now db lhu s h
    obtain ⟨hmax, havg⟩ := hstats hne
    refine ⟨?_, fun _ => ⟨hmeas, hrec, hhist, hres, hshow, hmax, havg⟩⟩
    simp [hact, (remaining_le_zero_iff _).mp h]
  · obtain ⟨hact, -, -, -⟩ := measureStep_running_fields now db lhu s h
    have hlt : ¬ MEASUREMENT_DURATION ≤ (now - s.startTime) / 1000 := fun hc =>
      h ((remaining_le_zero_iff _).mpr hc)
    refine ⟨?_, fun hc => absurd hc hlt⟩
    rw [hact, hactive]
    simp [hlt]

/-- Witness for C8 forty seconds into a session. -/
theorem C8_session_completion_witness :
    demoState.isActive = true ∧ demoState.measurements ≠ [] ∧
      (((measureStep 40000 7 0 demoState).1.isActive = false ↔
          MEASUREMENT_DURATION ≤ (40000 - demoState.startTime) / 1000) ∧
        (MEASUREMENT_DURATION ≤ (40000 - demoState.startTime) / 1000 →
          (measureStep 40000 7 0 demoState).1.measurements = demoState.measurements ∧
          (measureStep 40000 7 0 demoState).1.recentSamples = demoState.recentSamples ∧
          (measureStep 40000 7 0 demoState).1.history = demoState.history ∧
          (measureStep 40000 7 0 demoState).1.resourcesOpen = false ∧
          (measureStep 40000 7 0 demoState).1.showGraph = true ∧
          (measureStep 40000 7 0 demoState).1.maxDb
              = some (jsRound (maxD demoState.measurements)) ∧
          (measureStep 40000 7 0 demoState).1.avgDb
              = some (jsRound (listAvg demoState.measurements)))) :=
  ⟨rfl, by decide, C8_session_completion 40000 7 0 demoState rfl (by decide)⟩

/-! ## Graph generation (`generatePath`) -/

/-- `const range = maxDbVal - minDb || 1`: JavaScript `||` replaces the value
`0` (the all-equal history) by `1` and keeps every other value, including
values strictly between `0` and `1`. -/
def pathRange (history : List ℚ) : ℚ :=
  if maxD history - minD history = 0 then 1 else maxD history - minD history

/-- The coordinate list built inside `generatePath`: entry `db` at index `i`
maps to `x = padding + (i / (history.length - 1)) * (width - 2 * padding)` and
`y = height - padding - ((db - minDb) / range) * (height - 2 * padding)` with
`width = 800`, `height = 120`, `padding = 10`. -/
def pathPoints (history : List ℚ) : List (ℚ × ℚ) :=
  let width : ℚ := 800
  let height : ℚ := 120
  let padding : ℚ := 10
  let minDb := minD history
  let range := pathRange history
  history.enum.map fun p =>
    (padding + ((p.1 : ℚ) / ((history.length : ℚ) - 1)) * (width - 2 * padding),
     height - padding - ((p.2 - minDb) / range) * (height - 2 * padding))

/-- `generatePath()`: the empty string for fewer than two history points,
otherwise `M x,y L x,y ...` through the computed points. -/
def generatePath (history : List ℚ) : String :=
  if history.length < 2 then "" else
    "M " ++ String.intercalate " L "
      ((pathPoints history).map fun p => toString p.1 ++ "," ++ toString p.2)

/-- The point construction as the claim words it, identical to `pathPoints`
except that the range is "floored at 1": `max (maxDbVal - minDb) 1` where the
code has `(maxDbVal - minDb) || 1`. -/
def specPathPoints (history : List ℚ) : List (ℚ × ℚ) :=
  let width : ℚ := 800
  let height : ℚ := 120
  let padding : ℚ := 10
  let minDb := minD history
  let range := max (maxD history - minD history) 1
  history.enum.map fun p =>
    (padding + ((p.1 : ℚ) / ((history.length : ℚ) - 1)) * (width - 2 * padding),
     height - padding - ((p.2 - minDb) / range) * (height - 2 * padding))

theorem minD_le_maxD (l : List ℚ) (hne : l ≠ []) : minD l ≤ maxD l := by
  cases l with
  | nil => exact absurd rfl hne
  | cons x xs => exact le_trans (foldl_min_le xs x) (le_foldl_max xs x)

theorem pathRange_pos (h : List ℚ) (hne : h ≠ []) : 0 < pathRange h := by
  rw [pathRange]
  split_ifs with h0
  · norm_num
  · exact lt_of_le_of_ne (sub_nonneg.mpr (minD_le_maxD h hne)) (Ne.symm h0)

theorem pathPoints_getD (h : List ℚ) (i : ℕ) (hi : i < h.length) :
    (pathPoints h).getD i (0, 0) =
      (10 + ((i : ℚ) / ((h.length : ℚ) - 1)) * 780,
       110 - ((h.getD i 0 - minD h) / pathRange h) * 100) := by
  simp only [pathPoints]
  rw [List.getD_eq_getD_get?, List.get?_map, List.get?_enum, List.get?_eq_get hi]
  simp only [Option.map_some', Option.getD_some]
  rw [show h.getD i 0 = h.get ⟨i, hi⟩ from List.getD_eq_get h 0 hi]
  norm_num

/-- C9 counterexample: on the history `[0, 1/2]` the session's range is `1/2`,
which `range || 1` keeps, while a range "floored at 1" would replace it by `1`;
the second point's `y` is `10` in the code but `60` under the claimed formula. -/
theorem C9_range_floor_counterexample :
    pathPoints [0, 1 / 2] ≠ specPathPoints [0, 1 / 2] ∧
      ((pathPoints [0, 1 / 2]).getD 1 (0, 0)).2 = 10 ∧
      ((specPathPoints [0, 1 / 2]).getD 1 (0, 0)).2 = 60 := by
  have h1 : pathPoints [0, 1 / 2] = [(10, 110), (790, 10)] := by
    norm_num [pathPoints, pathRange, minD, maxD, min_def, max_def,
      List.enum, List.enumFrom]
  have h2 : specPathPoints [0, 1 / 2] = [(10, 110), (790, 60)] := by
    norm_num [specPathPoints, minD, maxD, min_def, max_def,
      List.enum, List.enumFrom]
  refine ⟨by rw [h1, h2]; simp, by rw [h1]; rfl, by rw [h2]; rfl⟩

/-- C9 (amended): for a history of at least two samples, the `i`-th point sits
at `x = 10 + (i / (n - 1)) * 780`, evenly spaced by index across the drawing
width, and at `y = 110 - ((dbᵢ - min) / range) * 100` where
`range = max - min`, replaced by `1` only when the range is zero; `y` is
inverted: a larger loudness sample gives a smaller (or equal) `y`. -/
theorem C9_path_points (h : List ℚ) (h2 : 2 ≤ h.length) :
    (pathPoints h).length = h.length ∧
      (∀ i, i < h.length →
        (pathPoints h).getD i (0, 0) =
          (10 + ((i : ℚ) / ((h.length : ℚ) - 1)) * 780,
           110 - ((h.getD i 0 - minD h) / pathRange h) * 100)) ∧
      (∀ i j, i < h.length → j < h.length → h.getD i 0 ≤ h.getD j 0 →
        ((pathPoints h).getD j (0, 0)).2 ≤ ((pathPoints h).getD i (0, 0)).2) := by
  have hne : h ≠ [] := by
    intro hnil
    rw [hnil] at h2
    simp at h2
  have hr := pathRange_pos h hne
  refine ⟨by simp [pathPoints], fun i hi => pathPoints_getD h i hi, ?_⟩
  intro i j hi hj hij
  rw [pathPoints_getD h i hi, pathPoints_getD h j hj]
  have hsub : h.getD i 0 - minD h ≤ h.getD j 0 - minD h := sub_le_sub_right hij _
  have hdiv : (h.getD i 0 - minD h) / pathRange h ≤ (h.getD j 0 - minD h) / pathRange h := by
    rw [div_le_div_iff_of_pos_right hr]
    exact hsub
  simp only
  linarith

/-- Witness for C9 (amended) at the history `[1, 2]`. -/
theorem C9_path_points_witness :
    (2 ≤ [(1 : ℚ), 2].length) ∧
      ((pathPoints [(1 : ℚ), 2]).length = [(1 : ℚ), 2].length ∧
        (∀ i, i < [(1 : ℚ), 2].length →
          (pathPoints [(1 : ℚ), 2]).getD i (0, 0) =
            (10 + ((i : ℚ) / (([(1 : ℚ), 2].length : ℚ) - 1)) * 780,
             110 - (([(1 : ℚ), 2].getD i 0 - minD [(1 : ℚ), 2])
                / pathRange [(1 : ℚ), 2]) * 100)) ∧
        (∀ i j, i < [(1 : ℚ), 2].length → j < [(1 : ℚ), 2].length →
          [(1 : ℚ), 2].getD i 0 ≤ [(1 : ℚ), 2].getD j 0 →
          ((pathPoints [(1 : ℚ), 2]).getD j (0, 0)).2
            ≤ ((pathPoints [(1 : ℚ), 2]).getD i (0, 0)).2)) :=
  ⟨by decide, C9_path_points [(1 : ℚ), 2] (by decide)⟩

/-- C10: with fewer than two history samples `generatePath` returns the empty
string. -/
theorem C10_short_history_empty_path (h : List ℚ) (hlt : h.length < 2) :
    generatePath h = "" := by
  simp [generatePath, hlt]

/-- Witness for C10 at the one-point history `[5]`. -/
theorem C10_short_history_empty_path_witness :
    ([(5 : ℚ)].length < 2) ∧ generatePath [(5 : ℚ)] = "" :=
  ⟨by decide, C10_short_history_empty_path [(5 : ℚ)] (by decide)⟩

end SoundMeter
